import Mathlib

/-!
Formal model of the session/connection coordination core of `zaruba`
(`src/zaruba.py.py`): an in-memory two-party scoring service built on
FastAPI.  Python dictionaries (`active_sessions`,
`ConnectionManager.active_connections`) are modelled as association
lists with Python `dict` semantics: assignment replaces the value of an
existing key in place, otherwise appends; deletion removes the key;
lookup returns the first (unique) binding.  `datetime` values are
modelled as integers counting seconds; `timedelta(hours=15)` is the
constant `54000`.  WebSocket sockets are abstract identifiers; whether
`send_text` on a socket raises is modelled by an environment parameter
`sendOk : Conn → Bool`.
-/

namespace Zaruba

/-- Abstract identifier of one WebSocket connection. -/
abbrev Conn := Nat

/-- Python `d[k]` lookup (as an `Option`): first binding of key `k`. -/
def getk {α : Type} (m : List (String × α)) (k : String) : Option α :=
  (m.find? (fun kv => kv.1 == k)).map (fun kv => kv.2)

/-- Python `k in d` membership test. -/
def hask {α : Type} (m : List (String × α)) (k : String) : Bool :=
  m.any (fun kv => kv.1 == k)

/-- Python `d[k] = v`: replace the binding in place if the key exists,
otherwise append it (insertion order is preserved). -/
def setk {α : Type} (m : List (String × α)) (k : String) (v : α) : List (String × α) :=
  if hask m k then m.map (fun kv => if kv.1 == k then (k, v) else kv)
  else m ++ [(k, v)]

/-- Python `del d[k]`: drop the binding of key `k`. -/
def delk {α : Type} (m : List (String × α)) (k : String) : List (String × α) :=
  m.filter (fun kv => kv.1 != k)

/-- Python `str.strip()`: remove leading and trailing whitespace.
(Defined structurally on the character list so that it evaluates inside
the kernel; on the ASCII names involved here it agrees with Python.) -/
def strip (s : String) : String :=
  ⟨List.reverse (List.dropWhile Char.isWhitespace
    (List.reverse (List.dropWhile Char.isWhitespace s.data)))⟩

/-- `PRODUCT_LIST` from the source: the fixed, ordered product catalog. -/
def PRODUCT_LIST : List String := [
  "ДК", "КК", "Комбо/Кросс КК", "ЦП", "Гос.Уведомления", "Смарт",
  "Кешбек", "ЖКУ", "БС", "БС со Стратегией", "Инвесткопилка",
  "Токенизация", "Накопительный Счет", "Вклад", "Детская Кросс",
  "Сим-Карта", "Перевод Пенсии", "Селфи ДК", "Селфи КК"
]

/-- `{product: 0 for product in PRODUCT_LIST}`: the zero-initialized
score mapping given to each participant at registration. -/
def zeroScores : List (String × Int) := PRODUCT_LIST.map (fun p => (p, 0))

/-- One value of `active_sessions`: the session record built in
`register_session`. -/
structure Session where
  participant1 : String
  participant2 : String
  scores : List (String × List (String × Int))
  created_at : Int
deriving DecidableEq, Repr

/-- The shared mutable state: `active_sessions` (the Session Store),
`manager.active_connections` (the Connection Registry), and the set of
connection handshakes currently suspended inside
`await websocket.accept()` (between the existence check and the
registry append in `ConnectionManager.connect`). -/
structure St where
  sessions : List (String × Session)
  registry : List (String × List Conn)
  pending : List (String × Conn)
deriving DecidableEq, Repr

/-- The state at process start: empty store, empty registry. -/
def St.empty : St := ⟨[], [], []⟩

/-- Outcome of `POST /register` (HTTP 400 / 409 / 201). -/
inductive RegisterResult where
  | validationError
  | conflictError
  | created (session_id : String) (user_name : String)
deriving DecidableEq, Repr

/-- Outcome of `POST /login` (HTTP 404 / 200). -/
inductive LoginResult where
  | notFound
  | ok (session_id : String) (user_name : String)
deriving DecidableEq, Repr

/-- The JSON messages pushed over the session channel. -/
inductive Msg where
  | session_ended
  | state_update (data : Session)
deriving DecidableEq, Repr

/-- Outcome of `POST /end_session`: HTTP 404, an exception escaping from
a failed `send_text` during the termination broadcast, or HTTP 200. -/
inductive EndResult where
  | notFound
  | raised (c : Conn)
  | ended
deriving DecidableEq, Repr

/-- Outcome of the WebSocket handshake check in `websocket_endpoint`. -/
inductive HsResult where
  | rejected
  | accepted
deriving DecidableEq, Repr

/-- The session record inserted by `register_session` (source lines
121-129): both participants get the zero-initialized catalog scores and
`created_at` is the current time. -/
def newSession (now : Int) (p1 p2 : String) : Session :=
  { participant1 := p1, participant2 := p2,
    scores := [(p1, zeroScores), (p2, zeroScores)],
    created_at := now }

/-- `register_session` (source lines 107-131): strip both names, derive
the session key from the second participant's stripped name, validate
(non-empty, distinct), check for a key conflict, and insert the new
session with zero-initialized scores and `created_at := now`. -/
def register_session (now : Int) (participant1 participant2 : String) (st : St) :
    RegisterResult × St :=
  let p1 := strip participant1
  let p2 := strip participant2
  let session_id := p2
  if p1 = "" ∨ p2 = "" then (.validationError, st)
  else if p1 = p2 then (.validationError, st)
  else if hask st.sessions session_id then (.conflictError, st)
  else (.created session_id p1,
    { st with sessions := setk st.sessions session_id (newSession now p1 p2) })

/-- `login_user` (source lines 134-142): strip the submitted name, use
it as the session key, and report 404 or 200; the state is untouched. -/
def login_user (login : String) (st : St) : LoginResult × St :=
  let session_id := strip login
  if hask st.sessions session_id then (.ok session_id session_id, st)
  else (.notFound, st)

/-- The send loop of `ConnectionManager.broadcast` (source lines 57-60):
`for connection in ...: await connection.send_text(message)`.  The
environment `sendOk` says which sockets accept the send; the first
socket whose `send_text` raises aborts the loop and the exception
escapes (there is no `try`/`except` around the loop).  Returns the
connections actually sent to, in order, and the failing connection if
any. -/
def send_loop (sendOk : Conn → Bool) : List Conn → List Conn × Option Conn
  | [] => ([], none)
  | c :: cs =>
    if sendOk c then
      let r := send_loop sendOk cs
      (c :: r.1, r.2)
    else ([], some c)

/-- `ConnectionManager.broadcast` (source lines 57-60): if the key has a
connection list, send `message` to each registered connection in
registration order.  Returns the deliveries made (connection, message)
and the connection whose send raised, if any. -/
def broadcast (sendOk : Conn → Bool) (message : Msg) (session_id : String) (st : St) :
    List (Conn × Msg) × Option Conn :=
  if hask st.registry session_id then
    let r := send_loop sendOk ((getk st.registry session_id).getD [])
    (r.1.map (fun c => (c, message)), r.2)
  else ([], none)

/-- `end_session` (source lines 145-160): if the session exists,
broadcast `{"type": "session_ended"}` to its connections, then delete
the session and (if present) its connection list; otherwise report 404.
If a send during the broadcast raises, the exception escapes the
handler before either `del` executes, so nothing is removed.  Returns
the outcome, the deliveries made, and the new state. -/
def end_session (sendOk : Conn → Bool) (session_id : String) (st : St) :
    EndResult × List (Conn × Msg) × St :=
  if hask st.sessions session_id then
    let r := broadcast sendOk Msg.session_ended session_id st
    match r.2 with
    | some c => (.raised c, r.1, st)
    | none =>
      (.ended, r.1,
        { st with sessions := delk st.sessions session_id,
                  registry := delk st.registry session_id })
  else (.notFound, [], st)

/-- One firing of the body of `cleanup_old_sessions` (source lines
66-80): collect the keys of sessions with `now - created_at >
timedelta(hours=15)` (strictly greater; `54000` seconds), then delete
each collected key from `active_sessions` and from
`manager.active_connections`. -/
def cleanup_sweep (now : Int) (st : St) : St :=
  let sessions_to_delete :=
    (st.sessions.filter (fun kv => (54000 : Int) < now - kv.2.created_at)).map (fun kv => kv.1)
  { st with sessions := sessions_to_delete.foldl delk st.sessions,
            registry := sessions_to_delete.foldl delk st.registry }

/-- The first phase of `websocket_endpoint` (source lines 165-171): the
existence check `if session_id not in active_sessions` rejects the
socket with `close(code=1008)` and changes nothing; otherwise the
handler proceeds into `manager.connect`, whose `await
websocket.accept()` is a suspension point — the handshake is recorded
as pending until the accept completes. -/
def websocket_handshake (st : St) (session_id : String) (ws : Conn) : HsResult × St :=
  if hask st.sessions session_id then
    (.accepted, { st with pending := st.pending ++ [(session_id, ws)] })
  else (.rejected, st)

/-- The second phase of `ConnectionManager.connect` (source lines
47-51), run when `await websocket.accept()` returns: create the
connection list for the key if absent and append the socket.  Note the
append is unconditional — the session's existence was only checked
before the suspension. -/
def finish_connect (st : St) (session_id : String) (ws : Conn) : St :=
  { st with pending := st.pending.erase (session_id, ws),
            registry := setk st.registry session_id
              ((getk st.registry session_id).getD [] ++ [ws]) }

/-- `websocket_endpoint` up to the initial snapshot (source lines
165-177), run without any interleaved task: the handshake check,
`manager.connect`, and the `state_update` snapshot sent to the new
socket.  (The snapshot send itself sits in the truncated tail of the
source file; its content `{"type": "state_update", "data":
active_sessions[session_id]}` is on source lines 175-177, completed
from spec §4.5 step 2.)  Returns the outcome, the new state, and the
messages sent to the socket. -/
def websocket_open (st : St) (session_id : String) (ws : Conn) :
    HsResult × St × List (Conn × Msg) :=
  match websocket_handshake st session_id ws with
  | (.rejected, st1) => (.rejected, st1, [])
  | (.accepted, st1) =>
    let st2 := finish_connect st1 session_id ws
    match getk st2.sessions session_id with
    | some sess => (.accepted, st2, [(ws, Msg.state_update sess)])
    | none => (.accepted, st2, [])

/-- Modelled from the spec: the WebSocket receive loop that applies an
`update_score` command is in the truncated tail of `src/zaruba.py.py`
(the file ends inside `websocket_endpoint`).  Per spec §4.1 and §4.5
step 3, the command fails (is impossible) if the session is absent, and
otherwise the payload fully replaces that participant's score mapping
in the Session Store — no per-product merge. -/
def update_scores (session_id participant : String) (newScores : List (String × Int))
    (st : St) : Except Unit St :=
  match getk st.sessions session_id with
  | none => .error ()
  | some sess =>
    let sess' := { sess with scores := setk sess.scores participant newScores }
    .ok { st with sessions := setk st.sessions session_id sess' }

/-- `ConnectionManager.disconnect` (source lines 53-55): if the key has
a connection list, remove the socket's first occurrence from it (the
list itself is kept, possibly empty). -/
def manager_disconnect (ws : Conn) (session_id : String) (st : St) : St :=
  if hask st.registry session_id then
    let conns' := ((getk st.registry session_id).getD []).erase ws
    { st with registry := setk st.registry session_id conns' }
  else st

/-- One atomic step of the system: each constructor is a block of code
executed between two suspension points of the cooperative scheduler.
The connection handshake is split in two (`handshake` / `acceptConn`)
because `manager.connect` suspends at `await websocket.accept()`
between the existence check and the registry append. -/
inductive Step : St → St → Prop where
  | register (now : Int) (a b : String) (st : St) :
      Step st (register_session now a b st).2
  | login (l : String) (st : St) : Step st (login_user l st).2
  | endSession (sendOk : Conn → Bool) (sid : String) (st : St) :
      Step st (end_session sendOk sid st).2.2
  | sweep (now : Int) (st : St) : Step st (cleanup_sweep now st)
  | handshake (sid : String) (ws : Conn) (st : St) :
      Step st (websocket_handshake st sid ws).2
  | acceptConn (sid : String) (ws : Conn) (st : St) (h : (sid, ws) ∈ st.pending) :
      Step st (finish_connect st sid ws)
  | update (sid p : String) (ns : List (String × Int)) (st st' : St)
      (h : update_scores sid p ns st = .ok st') : Step st st'
  | disconnect (ws : Conn) (sid : String) (st : St) :
      Step st (manager_disconnect ws sid st)

/-- A state is reachable when some sequence of atomic steps leads to it
from the empty start state. -/
def Reachable (st : St) : Prop := Relation.ReflTransGen Step St.empty st

/-- The state produced by: `register("Alice", "Bob")` at time `0`; a
socket for `/ws/Bob/...` passes the existence check and suspends in
`accept()`; the hourly sweep fires at time `54001` (15 h 1 s) and
deletes session `"Bob"`; the suspended `connect` then resumes and
registers the socket under `"Bob"`. -/
def orphanState : St :=
  finish_connect
    (cleanup_sweep 54001
      (websocket_handshake (register_session 0 "Alice" "Bob" St.empty).2 "Bob" 0).2)
    "Bob" 0

/-- A store holding the session registered by `register("a", "b")` at
time `0`, keyed `"b"`. -/
def storeWithB : St := (register_session 0 "a" "b" St.empty).2

/-- A store holding the session registered by
`register("Alice", "Bob")` at time `0`, keyed `"Bob"`. -/
def storeAliceBob : St := (register_session 0 "Alice" "Bob" St.empty).2

/-- `storeAliceBob` after socket `0` has connected to session `"Bob"`
(uninterleaved handshake). -/
def oneConnState : St := (websocket_open storeAliceBob "Bob" 0).2.1

/-- `oneConnState` after a second socket `1` has also connected to
session `"Bob"`: its connection list is `[0, 1]` in registration
order. -/
def twoConnState : St := (websocket_open oneConnState "Bob" 1).2.1

/-! ### Association-list lemmas (Python `dict` semantics) -/

theorem getk_cons {α : Type} (a : String × α) (m : List (String × α)) (k : String) :
    getk (a :: m) k = if a.1 = k then some a.2 else getk m k := by
  by_cases h : a.1 = k
  · rw [getk, List.find?_cons_of_pos _ (by simp [h]), if_pos h]
    rfl
  · rw [getk, List.find?_cons_of_neg _ (by simp [h]), if_neg h]
    rfl

theorem hask_cons {α : Type} (a : String × α) (m : List (String × α)) (k : String) :
    hask (a :: m) k = ((a.1 == k) || hask m k) := by
  simp [hask]

theorem hask_eq_isSome_getk {α : Type} (m : List (String × α)) (k : String) :
    hask m k = (getk m k).isSome := by
  induction m with
  | nil => rfl
  | cons a m ih =>
    rw [hask_cons, getk_cons]
    by_cases h : a.1 = k
    · simp [h]
    · simp [h, ih]

theorem getk_map_replace_self {α : Type} (m : List (String × α)) (k : String) (v : α)
    (h : hask m k = true) :
    getk (m.map (fun kv => if kv.1 == k then (k, v) else kv)) k = some v := by
  induction m with
  | nil => simp [hask] at h
  | cons a m ih =>
    by_cases ha : a.1 = k
    · rw [List.map_cons, if_pos (by simp [ha]), getk_cons, if_pos rfl]
    · rw [List.map_cons, if_neg (by simp [ha]), getk_cons, if_neg ha]
      rw [hask_cons] at h
      exact ih (by simpa [ha] using h)

theorem getk_append_single_self {α : Type} (m : List (String × α)) (k : String) (v : α)
    (h : hask m k = false) : getk (m ++ [(k, v)]) k = some v := by
  induction m with
  | nil => simp [getk_cons]
  | cons a m ih =>
    rw [hask_cons, Bool.or_eq_false_iff] at h
    rw [List.cons_append, getk_cons, if_neg (by simpa using h.1)]
    exact ih h.2

theorem getk_setk_self {α : Type} (m : List (String × α)) (k : String) (v : α) :
    getk (setk m k v) k = some v := by
  unfold setk
  by_cases h : hask m k
  · rw [if_pos h]
    exact getk_map_replace_self m k v h
  · rw [if_neg h]
    exact getk_append_single_self m k v (by simpa using h)

theorem getk_map_replace_ne {α : Type} (m : List (String × α)) (k k' : String) (v : α)
    (h : k' ≠ k) :
    getk (m.map (fun kv => if kv.1 == k then (k, v) else kv)) k' = getk m k' := by
  induction m with
  | nil => rfl
  | cons a m ih =>
    by_cases ha : a.1 = k
    · rw [List.map_cons, if_pos (by simp [ha]), getk_cons, getk_cons,
        if_neg (fun hh => h hh.symm), if_neg (by rw [ha]; exact fun hh => h hh.symm)]
      exact ih
    · rw [List.map_cons, if_neg (by simp [ha]), getk_cons, getk_cons]
      by_cases hb : a.1 = k'
      · rw [if_pos hb, if_pos hb]
      · rw [if_neg hb, if_neg hb]
        exact ih

theorem getk_append_single_ne {α : Type} (m : List (String × α)) (k k' : String) (v : α)
    (h : k' ≠ k) : getk (m ++ [(k, v)]) k' = getk m k' := by
  induction m with
  | nil =>
    have : ¬ k = k' := fun hh => h hh.symm
    simp [getk_cons, getk, this]
  | cons a m ih =>
    rw [List.cons_append, getk_cons, getk_cons]
    by_cases hb : a.1 = k'
    · rw [if_pos hb, if_pos hb]
    · rw [if_neg hb, if_neg hb]
      exact ih

theorem getk_setk_ne {α : Type} (m : List (String × α)) (k k' : String) (v : α)
    (h : k' ≠ k) : getk (setk m k v) k' = getk m k' := by
  unfold setk
  by_cases hm : hask m k
  · rw [if_pos hm]
    exact getk_map_replace_ne m k k' v h
  · rw [if_neg hm]
    exact getk_append_single_ne m k k' v h

theorem getk_delk_self {α : Type} (m : List (String × α)) (k : String) :
    getk (delk m k) k = none := by
  induction m with
  | nil => rfl
  | cons a m ih =>
    by_cases ha : a.1 = k
    · rw [delk, List.filter_cons, if_neg (by simp [ha])]
      exact ih
    · rw [delk, List.filter_cons, if_pos (by simp [ha]), getk_cons, if_neg ha]
      exact ih

theorem getk_delk_ne {α : Type} (m : List (String × α)) (k k' : String) (h : k' ≠ k) :
    getk (delk m k) k' = getk m k' := by
  induction m with
  | nil => rfl
  | cons a m ih =>
    by_cases ha : a.1 = k
    · have hne : ¬ a.1 = k' := fun hh => h (hh.symm.trans ha)
      rw [delk, List.filter_cons, if_neg (by simp [ha]), getk_cons, if_neg hne]
      exact ih
    · rw [delk, List.filter_cons, if_pos (by simp [ha]), getk_cons, getk_cons]
      by_cases hb : a.1 = k'
      · rw [if_pos hb, if_pos hb]
      · rw [if_neg hb, if_neg hb]
        exact ih

theorem getk_foldl_delk_of_none {α : Type} (l : List String) (m : List (String × α))
    (k : String) (h : getk m k = none) : getk (l.foldl delk m) k = none := by
  induction l generalizing m with
  | nil => exact h
  | cons a l ih =>
    rw [List.foldl_cons]
    apply ih
    by_cases ha : k = a
    · subst ha; exact getk_delk_self m k
    · rw [getk_delk_ne m a k ha]; exact h

theorem getk_foldl_delk_of_mem {α : Type} (l : List String) (m : List (String × α))
    (k : String) (h : k ∈ l) : getk (l.foldl delk m) k = none := by
  induction l generalizing m with
  | nil => cases h
  | cons a l ih =>
    rw [List.foldl_cons]
    rcases List.mem_cons.mp h with rfl | hmem
    · exact getk_foldl_delk_of_none l (delk m k) k (getk_delk_self m k)
    · exact ih (delk m a) hmem

theorem getk_foldl_delk_of_not_mem {α : Type} (l : List String) (m : List (String × α))
    (k : String) (h : k ∉ l) : getk (l.foldl delk m) k = getk m k := by
  induction l generalizing m with
  | nil => rfl
  | cons a l ih =>
    rw [List.foldl_cons]
    have hka : k ≠ a := fun hh => h (hh ▸ List.mem_cons_self a l)
    rw [ih (delk m a) (fun hh => h (List.mem_cons_of_mem a hh)), getk_delk_ne m a k hka]

theorem getk_mem {α : Type} (m : List (String × α)) (k : String) (v : α)
    (h : getk m k = some v) : (k, v) ∈ m := by
  induction m with
  | nil => simp [getk] at h
  | cons a m ih =>
    rw [getk_cons] at h
    by_cases ha : a.1 = k
    · rw [if_pos ha] at h
      have : a = (k, v) := by
        cases a; cases h; cases ha; rfl
      exact this ▸ List.mem_cons_self a m
    · exact List.mem_cons_of_mem a (ih (by rwa [if_neg ha] at h))

theorem getk_of_nodup_mem {α : Type} (m : List (String × α)) (k : String) (v : α)
    (hnd : (m.map Prod.fst).Nodup) (h : (k, v) ∈ m) : getk m k = some v := by
  induction m with
  | nil => cases h
  | cons a m ih =>
    rw [List.map_cons, List.nodup_cons] at hnd
    rcases List.mem_cons.mp h with rfl | hmem
    · rw [getk_cons, if_pos rfl]
    · have hk : k ∈ m.map Prod.fst := List.mem_map.mpr ⟨(k, v), hmem, rfl⟩
      have ha : a.1 ≠ k := fun hh => hnd.1 (hh ▸ hk)
      rw [getk_cons, if_neg ha]
      exact ih hnd.2 hmem

theorem getk_map_const {α : Type} (l : List String) (p : String) (c : α)
    (h : p ∈ l) : getk (l.map (fun q => (q, c))) p = some c := by
  induction l with
  | nil => cases h
  | cons q l ih =>
    rw [List.map_cons, getk_cons]
    by_cases hq : q = p
    · rw [if_pos hq]
    · exact (if_neg hq).trans (ih (by rcases List.mem_cons.mp h with rfl | hm; exact absurd rfl hq; exact hm))

theorem cleanup_sweep_sessions (now : Int) (st : St) :
    (cleanup_sweep now st).sessions =
      ((st.sessions.filter (fun kv => (54000 : Int) < now - kv.2.created_at)).map
        (fun kv => kv.1)).foldl delk st.sessions := rfl

theorem getk_eq_none_of_hask_false {α : Type} (m : List (String × α)) (k : String)
    (h : hask m k = false) : getk m k = none := by
  cases hg : getk m k with
  | none => rfl
  | some v =>
    rw [hask_eq_isSome_getk, hg] at h
    exact absurd h (by simp)

/-! ### Send-loop lemmas -/

theorem send_loop_all_ok (sendOk : Conn → Bool) (l : List Conn)
    (h : ∀ c ∈ l, sendOk c = true) : send_loop sendOk l = (l, none) := by
  induction l with
  | nil => rfl
  | cons c cs ih =>
    rw [send_loop, if_pos (h c (List.mem_cons_self c cs)),
      ih (fun x hx => h x (List.mem_cons_of_mem c hx))]

theorem send_loop_first_fail (sendOk : Conn → Bool) (l1 : List Conn) (c : Conn)
    (l2 : List Conn) (h1 : ∀ x ∈ l1, sendOk x = true) (hc : sendOk c = false) :
    send_loop sendOk (l1 ++ c :: l2) = (l1, some c) := by
  induction l1 with
  | nil =>
    rw [List.nil_append, send_loop, if_neg (by simp [hc])]
  | cons a l1 ih =>
    rw [List.cons_append, send_loop, if_pos (h1 a (List.mem_cons_self a l1)),
      ih (fun x hx => h1 x (List.mem_cons_of_mem a hx))]

/-! ### Characterization of `register_session` -/

theorem register_session_success (now : Int) (a b : String) (st : St)
    (h1 : strip a ≠ "") (h2 : strip b ≠ "") (h3 : strip a ≠ strip b)
    (h4 : hask st.sessions (strip b) = false) :
    register_session now a b st =
      (RegisterResult.created (strip b) (strip a),
       { st with sessions := setk st.sessions (strip b) (newSession now (strip a) (strip b)) }) := by
  simp only [register_session]
  rw [if_neg (by rintro (h | h); exacts [h1 h, h2 h]), if_neg h3, if_neg (by simp [h4])]

theorem register_session_conflict (now : Int) (a b : String) (st : St)
    (h1 : strip a ≠ "") (h2 : strip b ≠ "") (h3 : strip a ≠ strip b)
    (h4 : hask st.sessions (strip b) = true) :
    register_session now a b st = (RegisterResult.conflictError, st) := by
  simp only [register_session]
  rw [if_neg (by rintro (h | h); exacts [h1 h, h2 h]), if_neg h3, if_pos h4]

theorem register_session_validationError_iff (now : Int) (a b : String) (st : St) :
    (register_session now a b st).1 = RegisterResult.validationError ↔
      (strip a = "" ∨ strip b = "" ∨ strip a = strip b) := by
  simp only [register_session]
  by_cases hc1 : strip a = "" ∨ strip b = ""
  · rw [if_pos hc1]
    exact iff_of_true rfl (by rcases hc1 with h | h; exacts [Or.inl h, Or.inr (Or.inl h)])
  · rw [if_neg hc1]
    push_neg at hc1
    by_cases hc2 : strip a = strip b
    · rw [if_pos hc2]
      exact iff_of_true rfl (Or.inr (Or.inr hc2))
    · rw [if_neg hc2]
      by_cases hc3 : hask st.sessions (strip b) = true
      · rw [if_pos hc3]
        exact iff_of_false (by simp) (by rintro (h | h | h); exacts [hc1.1 h, hc1.2 h, hc2 h])
      · rw [if_neg hc3]
        exact iff_of_false (by simp) (by rintro (h | h | h); exacts [hc1.1 h, hc1.2 h, hc2 h])

theorem register_session_failure_keeps_state (now : Int) (a b : String) (st : St)
    (h : (register_session now a b st).1 = RegisterResult.validationError ∨
         (register_session now a b st).1 = RegisterResult.conflictError) :
    (register_session now a b st).2 = st := by
  simp only [register_session] at h ⊢
  by_cases hc1 : strip a = "" ∨ strip b = ""
  · rw [if_pos hc1]
  · rw [if_neg hc1] at h ⊢
    by_cases hc2 : strip a = strip b
    · rw [if_pos hc2]
    · rw [if_neg hc2] at h ⊢
      by_cases hc3 : hask st.sessions (strip b) = true
      · rw [if_pos hc3]
      · rw [if_neg hc3] at h
        rcases h with h | h <;> simp at h

/-! ### Claim theorems -/

/-- C1, counterexample: the claim says a successful `register(a, b)`
returns the session key equal to `b` itself; but
`register("x", " y ")` succeeds and returns key `"y"`, which differs
from the submitted name `" y "` (names are stripped first). -/
theorem c1_counterexample :
    (register_session 0 "x" " y " St.empty).1 = RegisterResult.created "y" "x" ∧
    ("y" : String) ≠ " y " := by
  constructor
  · decide
  · decide

/-- C1 (amended): for names whose stripped forms are non-empty and
distinct and whose derived key is free, a successful `register(a, b)`
returns the session key `strip b`, and inserts a session whose scores
mapping has exactly the two keys `strip a` and `strip b`, each bound to
the zero-initialized catalog mapping (every product of `PRODUCT_LIST`
scored `0`), with `created_at` set to the creation time. -/
theorem c1_register_inserts_zeroed_session (now : Int) (a b : String) (st : St)
    (h1 : strip a ≠ "") (h2 : strip b ≠ "") (h3 : strip a ≠ strip b)
    (h4 : hask st.sessions (strip b) = false) :
    (register_session now a b st).1 = RegisterResult.created (strip b) (strip a) ∧
    ∃ sess, getk (register_session now a b st).2.sessions (strip b) = some sess ∧
      sess.scores.map Prod.fst = [strip a, strip b] ∧
      getk sess.scores (strip a) = some zeroScores ∧
      getk sess.scores (strip b) = some zeroScores ∧
      zeroScores.map Prod.fst = PRODUCT_LIST ∧
      (∀ p ∈ PRODUCT_LIST, getk zeroScores p = some 0) ∧
      sess.created_at = now := by
  rw [register_session_success now a b st h1 h2 h3 h4]
  refine ⟨rfl, newSession now (strip a) (strip b), getk_setk_self _ _ _, ?_, ?_, ?_, ?_, ?_, rfl⟩
  · simp [newSession]
  · rw [newSession, getk_cons, if_pos rfl]
  · rw [newSession, getk_cons, if_neg h3, getk_cons, if_pos rfl]
  · decide
  · exact fun p hp => getk_map_const PRODUCT_LIST p 0 hp

/-- C1 witness: instantiation at `register("Alice", "Bob")` on the
empty store. -/
theorem c1_witness :
    strip "Alice" ≠ "" ∧ strip "Bob" ≠ "" ∧ strip "Alice" ≠ strip "Bob" ∧
    hask St.empty.sessions (strip "Bob") = false ∧
    ((register_session 0 "Alice" "Bob" St.empty).1 =
        RegisterResult.created (strip "Bob") (strip "Alice") ∧
      ∃ sess, getk (register_session 0 "Alice" "Bob" St.empty).2.sessions (strip "Bob") =
          some sess ∧
        sess.scores.map Prod.fst = [strip "Alice", strip "Bob"] ∧
        getk sess.scores (strip "Alice") = some zeroScores ∧
        getk sess.scores (strip "Bob") = some zeroScores ∧
        zeroScores.map Prod.fst = PRODUCT_LIST ∧
        (∀ p ∈ PRODUCT_LIST, getk zeroScores p = some 0) ∧
        sess.created_at = 0) :=
  ⟨by decide, by decide, by decide, by decide,
    c1_register_inserts_zeroed_session 0 "Alice" "Bob" St.empty
      (by decide) (by decide) (by decide) (by decide)⟩

/-- C2: `register` answers `ValidationError` whenever a name is empty
or the names are equal, answers `ConflictError` whenever validation
passes but a session already exists under the derived key (the stripped
second name), and in every failure case leaves the store unchanged. -/
theorem c2_register_failure_modes (now : Int) (a b : String) (st : St) :
    (a = "" ∨ b = "" → register_session now a b st = (RegisterResult.validationError, st)) ∧
    (a = b → register_session now a b st = (RegisterResult.validationError, st)) ∧
    (strip a ≠ "" → strip b ≠ "" → strip a ≠ strip b → hask st.sessions (strip b) = true →
      register_session now a b st = (RegisterResult.conflictError, st)) ∧
    ((register_session now a b st).1 = RegisterResult.validationError ∨
      (register_session now a b st).1 = RegisterResult.conflictError →
      (register_session now a b st).2 = st) := by
  refine ⟨?_, ?_, register_session_conflict now a b st, register_session_failure_keeps_state now a b st⟩
  · intro h
    have hc : strip a = "" ∨ strip b = "" := by
      rcases h with rfl | rfl
      · exact Or.inl (by decide)
      · exact Or.inr (by decide)
    simp only [register_session]
    rw [if_pos hc]
  · rintro rfl
    simp only [register_session]
    by_cases he : strip a = ""
    · rw [if_pos (Or.inl he)]
    · rw [if_neg (by rintro (h | h) <;> exact he h)]
      simp

/-- C2 witness: the three failure modes at concrete inputs — empty
name, equal names, and a key conflict against `storeWithB`. -/
theorem c2_witness :
    register_session 0 "" "x" St.empty = (RegisterResult.validationError, St.empty) ∧
    register_session 0 "a" "a" St.empty = (RegisterResult.validationError, St.empty) ∧
    register_session 0 "c" "b" storeWithB = (RegisterResult.conflictError, storeWithB) :=
  ⟨(c2_register_failure_modes 0 "" "x" St.empty).1 (Or.inl rfl),
   (c2_register_failure_modes 0 "a" "a" St.empty).2.1 rfl,
   (c2_register_failure_modes 0 "c" "b" storeWithB).2.2.1
     (by decide) (by decide) (by decide) (by decide)⟩

/-- C10: registration and login strip leading and trailing whitespace
before validation, key derivation and lookup: `register` rejects
exactly when the stripped names are empty or equal, on success stores
the stripped names under the stripped second name as key, and
`login(" b ")` finds the session registered for `"b"`. -/
theorem c10_names_are_stripped (now : Int) (a b l : String) (st : St) :
    ((register_session now a b st).1 = RegisterResult.validationError ↔
      (strip a = "" ∨ strip b = "" ∨ strip a = strip b)) ∧
    (strip a ≠ "" → strip b ≠ "" → strip a ≠ strip b →
      hask st.sessions (strip b) = false →
      register_session now a b st =
        (RegisterResult.created (strip b) (strip a),
         { st with sessions := setk st.sessions (strip b) (newSession now (strip a) (strip b)) })) ∧
    (hask st.sessions (strip l) = true →
      (login_user l st).1 = LoginResult.ok (strip l) (strip l)) ∧
    (hask st.sessions "b" = true → (login_user " b " st).1 = LoginResult.ok "b" "b") := by
  refine ⟨register_session_validationError_iff now a b st,
    register_session_success now a b st, ?_, ?_⟩
  · intro h
    simp only [login_user]
    rw [if_pos h]
  · intro h
    have hb : strip " b " = "b" := by decide
    simp only [login_user]
    rw [hb, if_pos h]

/-- C10 witness: instantiation at `register(" Alice ", " Bob ")` and
`login(" b ")` against `storeWithB`. -/
theorem c10_witness :
    ((register_session 0 " Alice " " Bob " St.empty).1 = RegisterResult.validationError ↔
      (strip " Alice " = "" ∨ strip " Bob " = "" ∨ strip " Alice " = strip " Bob ")) ∧
    (strip " Alice " ≠ "" ∧ strip " Bob " ≠ "" ∧ strip " Alice " ≠ strip " Bob " ∧
      hask St.empty.sessions (strip " Bob ") = false ∧
      register_session 0 " Alice " " Bob " St.empty =
        (RegisterResult.created (strip " Bob ") (strip " Alice "),
         { St.empty with sessions := setk St.empty.sessions (strip " Bob ") (newSession 0 (strip " Alice ") (strip " Bob ")) })) ∧
    (hask storeWithB.sessions "b" = true ∧
      (login_user " b " storeWithB).1 = LoginResult.ok "b" "b") :=
  ⟨(c10_names_are_stripped 0 " Alice " " Bob " "x" St.empty).1,
   ⟨by decide, by decide, by decide, by decide,
     (c10_names_are_stripped 0 " Alice " " Bob " "x" St.empty).2.1
       (by decide) (by decide) (by decide) (by decide)⟩,
   ⟨by decide,
     (c10_names_are_stripped 0 "x" "y" " b " storeWithB).2.2.2 (by decide)⟩⟩

/-- C3: for an existing session and a participant `p` of that session,
`updateScores` replaces participant `p`'s entire score mapping with the
payload wholesale (the stored value becomes exactly `newScores`, so
products absent from the payload are lost) and leaves the other
participant's score mapping, the session metadata, and every other
session unchanged. -/
theorem c3_update_scores_replaces_wholesale (st : St) (sid : String) (sess : Session)
    (p : String) (newScores : List (String × Int))
    (hs : getk st.sessions sid = some sess) (_hp : hask sess.scores p = true) :
    ∃ st', update_scores sid p newScores st = Except.ok st' ∧
      ∃ sess', getk st'.sessions sid = some sess' ∧
        getk sess'.scores p = some newScores ∧
        (∀ q, q ≠ p → getk sess'.scores q = getk sess.scores q) ∧
        sess'.participant1 = sess.participant1 ∧
        sess'.participant2 = sess.participant2 ∧
        sess'.created_at = sess.created_at ∧
        (∀ k', k' ≠ sid → getk st'.sessions k' = getk st.sessions k') := by
  rw [update_scores, hs]
  refine ⟨_, rfl, { sess with scores := setk sess.scores p newScores },
    getk_setk_self _ _ _, getk_setk_self _ _ _,
    fun q hq => getk_setk_ne _ _ _ _ hq, rfl, rfl, rfl,
    fun k' hk => getk_setk_ne _ _ _ _ hk⟩

/-- C3 witness: replacing `"Alice"`'s scores in `storeAliceBob` with
the single-product payload from the spec's concrete scenario. -/
theorem c3_witness :
    getk storeAliceBob.sessions "Bob" = some (newSession 0 "Alice" "Bob") ∧
    hask (newSession 0 "Alice" "Bob").scores "Alice" = true ∧
    (∃ st', update_scores "Bob" "Alice" [("ДК", 3)] storeAliceBob = Except.ok st' ∧
      ∃ sess', getk st'.sessions "Bob" = some sess' ∧
        getk sess'.scores "Alice" = some [("ДК", 3)] ∧
        (∀ q, q ≠ "Alice" → getk sess'.scores q = getk (newSession 0 "Alice" "Bob").scores q) ∧
        sess'.participant1 = (newSession 0 "Alice" "Bob").participant1 ∧
        sess'.participant2 = (newSession 0 "Alice" "Bob").participant2 ∧
        sess'.created_at = (newSession 0 "Alice" "Bob").created_at ∧
        (∀ k', k' ≠ "Bob" → getk st'.sessions k' = getk storeAliceBob.sessions k')) :=
  ⟨by decide, by decide,
    c3_update_scores_replaces_wholesale storeAliceBob "Bob" (newSession 0 "Alice" "Bob")
      "Alice" [("ДК", 3)] (by decide) (by decide)⟩

/-- C4, counterexample: the claim says a session is absent after a
sweep at or past `T + 15h`; but the sweep condition is strictly
greater, so a sweep at exactly `T + 15h` (`54000` seconds after a
creation at `0`) keeps the session. -/
theorem c4_counterexample :
    (getk storeAliceBob.sessions "Bob").map Session.created_at = some 0 ∧
    hask (cleanup_sweep (0 + 54000) storeAliceBob).sessions "Bob" = true := by
  constructor
  · decide
  · decide

/-- C4 (amended): a session created at time `T` survives every sweep
run at or before `T + 15h`, and is removed by any sweep run strictly
after `T + 15h` (age measured from creation). -/
theorem c4_expiry_boundary (st : St) (k : String) (sess : Session) (now : Int)
    (hnd : (st.sessions.map Prod.fst).Nodup) (hs : getk st.sessions k = some sess) :
    (now ≤ sess.created_at + 54000 → hask (cleanup_sweep now st).sessions k = true) ∧
    (sess.created_at + 54000 < now → hask (cleanup_sweep now st).sessions k = false) := by
  have hdels : (k ∈ (st.sessions.filter
      (fun kv => (54000 : Int) < now - kv.2.created_at)).map (fun kv => kv.1)) ↔
      (54000 : Int) < now - sess.created_at := by
    constructor
    · intro hk
      rcases List.mem_map.mp hk with ⟨kv, hkv, hfst⟩
      rcases List.mem_filter.mp hkv with ⟨hmem, hcond⟩
      have hkv2 : getk st.sessions k = some kv.2 := by
        apply getk_of_nodup_mem st.sessions k kv.2 hnd
        have hkvp : kv = (k, kv.2) := by
          cases kv
          cases hfst
          rfl
        exact hkvp ▸ hmem
      rw [hs] at hkv2
      cases hkv2
      simpa using hcond
    · intro hlt
      exact List.mem_map.mpr ⟨(k, sess),
        List.mem_filter.mpr ⟨getk_mem _ _ _ hs, by simpa using hlt⟩, rfl⟩
  constructor
  · intro hle
    rw [cleanup_sweep_sessions, hask_eq_isSome_getk,
      getk_foldl_delk_of_not_mem _ _ _ (fun hk => by have := hdels.mp hk; omega), hs]
    rfl
  · intro hlt
    rw [cleanup_sweep_sessions, hask_eq_isSome_getk,
      getk_foldl_delk_of_mem _ _ _ (hdels.mpr (by omega))]
    rfl

/-- C4 witness: the session `"Bob"` created at `0` is present after a
sweep at `54000` (15 h sharp) and absent after a sweep at `54001`. -/
theorem c4_witness :
    (storeAliceBob.sessions.map Prod.fst).Nodup ∧
    getk storeAliceBob.sessions "Bob" = some (newSession 0 "Alice" "Bob") ∧
    hask (cleanup_sweep 54000 storeAliceBob).sessions "Bob" = true ∧
    hask (cleanup_sweep 54001 storeAliceBob).sessions "Bob" = false :=
  ⟨by decide, by decide,
    (c4_expiry_boundary storeAliceBob "Bob" (newSession 0 "Alice" "Bob") 54000
      (by decide) (by decide)).1 (by decide),
    (c4_expiry_boundary storeAliceBob "Bob" (newSession 0 "Alice" "Bob") 54001
      (by decide) (by decide)).2 (by decide)⟩

/-- C5: the no-orphaned-connections invariant fails on a reachable
interleaving.  `register("Alice", "Bob")`; a socket for `"Bob"` passes
the existence check of `websocket_endpoint` and suspends inside `await
websocket.accept()`; the hourly sweep fires 15h 1s later and deletes
session `"Bob"` (and its — still absent — registry entry); the
suspended `connect` then resumes and appends the socket to
`manager.active_connections["Bob"]`, recreating the entry.  The
resulting reachable state has a connection set under `"Bob"` but no
session `"Bob"`. -/
theorem c5_orphaned_connection_reachable :
    Reachable orphanState ∧ hask orphanState.registry "Bob" = true ∧
    hask orphanState.sessions "Bob" = false := by
  refine ⟨?_, by decide, by decide⟩
  refine Relation.ReflTransGen.head (Step.register 0 "Alice" "Bob" St.empty) ?_
  refine Relation.ReflTransGen.head (Step.handshake "Bob" 0 _) ?_
  refine Relation.ReflTransGen.head (Step.sweep 54001 _) ?_
  exact Relation.ReflTransGen.single (Step.acceptConn "Bob" 0 _ (by decide))

/-- C6, counterexample: the claim says a send failure on one connection
does not abort delivery to the remaining connections and is never
propagated; but with `[0, 1]` registered under `"Bob"` and socket `0`
failing, the broadcast delivers nothing to socket `1` and the failure
escapes (`some 0`). -/
theorem c6_counterexample :
    getk twoConnState.registry "Bob" = some [0, 1] ∧
    broadcast (fun c => c != 0) Msg.session_ended "Bob" twoConnState = ([], some 0) := by
  constructor
  · decide
  · decide

/-- C6 (amended): `broadcast` delivers the message to every connection
registered under the key in registration order when every send
succeeds; on the first failing connection it stops — connections before
it in registration order have received the message, the failing one and
all later ones have not, and the failure propagates to the caller. -/
theorem c6_broadcast_order_and_abort (sendOk : Conn → Bool) (msg : Msg) (sid : String)
    (st : St) (conns : List Conn) (h : getk st.registry sid = some conns) :
    ((∀ c ∈ conns, sendOk c = true) →
      broadcast sendOk msg sid st = (conns.map (fun c => (c, msg)), none)) ∧
    (∀ l1 c l2, conns = l1 ++ c :: l2 → (∀ x ∈ l1, sendOk x = true) → sendOk c = false →
      broadcast sendOk msg sid st = (l1.map (fun c => (c, msg)), some c)) := by
  have hh : hask st.registry sid = true := by
    rw [hask_eq_isSome_getk, h]
    rfl
  constructor
  · intro hok
    rw [broadcast, if_pos hh, h, Option.getD_some, send_loop_all_ok sendOk conns hok]
  · rintro l1 c l2 rfl hok hc
    rw [broadcast, if_pos hh, h, Option.getD_some, send_loop_first_fail sendOk l1 c l2 hok hc]

/-- C6 witness: against `twoConnState` (`[0, 1]` under `"Bob"`), an
all-success broadcast delivers to both in order, and a broadcast whose
first send fails delivers to neither and propagates the failure. -/
theorem c6_witness :
    getk twoConnState.registry "Bob" = some [0, 1] ∧
    broadcast (fun _ => true) Msg.session_ended "Bob" twoConnState =
      ([(0, Msg.session_ended), (1, Msg.session_ended)], none) ∧
    broadcast (fun c => c != 0) Msg.session_ended "Bob" twoConnState = ([], some 0) :=
  ⟨by decide,
    (c6_broadcast_order_and_abort (fun _ => true) Msg.session_ended "Bob" twoConnState
      [0, 1] (by decide)).1 (by decide),
    (c6_broadcast_order_and_abort (fun c => c != 0) Msg.session_ended "Bob" twoConnState
      [0, 1] (by decide)).2 [] 0 [1] rfl (by decide) (by decide)⟩

/-- C7, counterexample: the claim says `terminate(key)` on an existing
session removes it so that a subsequent `get(key)` returns absence; but
if a registered connection's send fails during the `session_ended`
broadcast, the exception escapes before the deletions and the session
is still present (and the notice reached nobody). -/
theorem c7_counterexample :
    hask oneConnState.sessions "Bob" = true ∧
    (end_session (fun _ => false) "Bob" oneConnState).1 = EndResult.raised 0 ∧
    (end_session (fun _ => false) "Bob" oneConnState).2.1 = [] ∧
    hask (end_session (fun _ => false) "Bob" oneConnState).2.2.sessions "Bob" = true := by
  refine ⟨by decide, by decide, by decide, by decide⟩

/-- C7 (amended): for an existing session key all of whose registered
connections accept the send, `terminate(key)` first delivers the
`session_ended` notice to every registered connection in registration
order, then removes both the session and its connection set; a
subsequent `get(key)` returns absence and a subsequent `terminate(key)`
reports not-found. -/
theorem c7_terminate_removes_session (sendOk : Conn → Bool) (sid : String) (st : St)
    (hs : hask st.sessions sid = true)
    (hok : ∀ c ∈ (getk st.registry sid).getD [], sendOk c = true) :
    (end_session sendOk sid st).1 = EndResult.ended ∧
    (end_session sendOk sid st).2.1 =
      ((getk st.registry sid).getD []).map (fun c => (c, Msg.session_ended)) ∧
    getk (end_session sendOk sid st).2.2.sessions sid = none ∧
    getk (end_session sendOk sid st).2.2.registry sid = none ∧
    (∀ sendOk', (end_session sendOk' sid (end_session sendOk sid st).2.2).1 =
      EndResult.notFound) := by
  have hbc : broadcast sendOk Msg.session_ended sid st =
      (((getk st.registry sid).getD []).map (fun c => (c, Msg.session_ended)), none) := by
    by_cases hr : hask st.registry sid = true
    · rw [broadcast, if_pos hr, send_loop_all_ok sendOk _ hok]
    · have hr' : hask st.registry sid = false := by simpa using hr
      rw [broadcast, if_neg (by simp [hr']), getk_eq_none_of_hask_false _ _ hr']
      rfl
  have hend : end_session sendOk sid st =
      (EndResult.ended,
       ((getk st.registry sid).getD []).map (fun c => (c, Msg.session_ended)),
       { st with sessions := delk st.sessions sid, registry := delk st.registry sid }) := by
    rw [end_session, if_pos hs, hbc]
  rw [hend]
  refine ⟨rfl, rfl, getk_delk_self _ _, getk_delk_self _ _, fun sendOk' => ?_⟩
  have hgone : hask (delk st.sessions sid) sid = false := by
    rw [hask_eq_isSome_getk, getk_delk_self]
    rfl
  rw [end_session, if_neg (by simp [hgone])]

/-- C7 witness: terminating session `"Bob"` of `oneConnState` with a
succeeding send delivers the notice to socket `0`, removes everything,
and a second `terminate` reports not-found. -/
theorem c7_witness :
    hask oneConnState.sessions "Bob" = true ∧
    (∀ c ∈ (getk oneConnState.registry "Bob").getD [], (fun _ => true : Conn → Bool) c = true) ∧
    ((end_session (fun _ => true) "Bob" oneConnState).1 = EndResult.ended ∧
      (end_session (fun _ => true) "Bob" oneConnState).2.1 =
        ((getk oneConnState.registry "Bob").getD []).map (fun c => (c, Msg.session_ended)) ∧
      getk (end_session (fun _ => true) "Bob" oneConnState).2.2.sessions "Bob" = none ∧
      getk (end_session (fun _ => true) "Bob" oneConnState).2.2.registry "Bob" = none ∧
      (∀ sendOk', (end_session sendOk' "Bob" (end_session (fun _ => true) "Bob" oneConnState).2.2).1 =
        EndResult.notFound)) :=
  ⟨by decide, by decide,
    c7_terminate_removes_session (fun _ => true) "Bob" oneConnState (by decide) (by decide)⟩

/-- C8: a WebSocket connection attempt against a session key with no
session in the store is rejected at the handshake: the handler returns
without accepting, the state (registry included) is unchanged, and no
snapshot is sent. -/
theorem c8_handshake_rejected_when_absent (st : St) (sid : String) (ws : Conn)
    (h : hask st.sessions sid = false) :
    websocket_open st sid ws = (HsResult.rejected, st, []) := by
  rw [websocket_open, websocket_handshake, if_neg (by simp [h])]

/-- C8 witness: a connection attempt for key `"Bob"` against the empty
store is rejected and registers nothing. -/
theorem c8_witness :
    hask St.empty.sessions "Bob" = false ∧
    websocket_open St.empty "Bob" 0 = (HsResult.rejected, St.empty, []) :=
  ⟨by decide, c8_handshake_rejected_when_absent St.empty "Bob" 0 (by decide)⟩

/-- C9, counterexample: the claim says `login(name)` fails exactly when
no session exists under `name` as key; but no session exists under the
key `" b "` in `storeWithB`, yet `login(" b ")` succeeds (the lookup
uses the stripped name `"b"`). -/
theorem c9_counterexample :
    hask storeWithB.sessions " b " = false ∧
    (login_user " b " storeWithB).1 = LoginResult.ok "b" "b" := by
  constructor
  · decide
  · decide

/-- C9 (amended): `login(name)` fails with not-found exactly when no
session exists under the stripped name as key, returns the stripped
name as the session key when one does, and never changes any state. -/
theorem c9_login_is_pure_lookup (l : String) (st : St) :
    ((login_user l st).1 = LoginResult.notFound ↔ hask st.sessions (strip l) = false) ∧
    (hask st.sessions (strip l) = true →
      (login_user l st).1 = LoginResult.ok (strip l) (strip l)) ∧
    (login_user l st).2 = st := by
  by_cases h : hask st.sessions (strip l) = true
  · refine ⟨?_, fun _ => ?_, ?_⟩
    · rw [login_user, if_pos h]
      simp [h]
    · rw [login_user, if_pos h]
    · rw [login_user, if_pos h]
  · have hf : hask st.sessions (strip l) = false := by simpa using h
    refine ⟨?_, fun hc => absurd hc h, ?_⟩
    · rw [login_user, if_neg h]
      simp [hf]
    · rw [login_user, if_neg h]

/-- C9 witness: `login(" b ")` against `storeWithB` succeeds with key
`"b"` and leaves the state unchanged. -/
theorem c9_witness :
    hask storeWithB.sessions (strip " b ") = true ∧
    (login_user " b " storeWithB).1 = LoginResult.ok (strip " b ") (strip " b ") ∧
    (login_user " b " storeWithB).2 = storeWithB :=
  ⟨by decide,
    (c9_login_is_pure_lookup " b " storeWithB).2.1 (by decide),
    (c9_login_is_pure_lookup " b " storeWithB).2.2⟩

end Zaruba
